import Mathlib

/-!
Verification development for the Whisper-cli speech-to-text pipeline
(TypeScript sources). The definitions below are a shallow embedding of
the program's data model and operations:

* strings are embedded as List Char (JavaScript strings), with
  Char.toLower / Char.toUpper standing for String.prototype.toLowerCase /
  toUpperCase (ASCII-faithful);
* JavaScript numbers are embedded as rationals;
* Math.random() is embedded as an explicit stream of draws,
  rnd : Nat -> Rat, consumed in call order;
* asynchronous completion is embedded as an explicit completion order, a
  list of segment ids, interleaved against the submission order;
* fallible operations return Except; external collaborators (the Gemini
  transcription/correction service, the clipboard sink) are embedded as
  per-call outcome records.

Wall-clock timing fields (processingTimes, createdTime, Date.now()) are
outside the embedding: no claim depends on them.
-/

/-! ## Dictionary engine (src/typescript/src/managers/clipboard-manager.ts,
dictionary section, and src/typescript/src/core/config.ts) -/

/-- DictionaryConfig from config.ts: DictionaryConfigSchema fields. -/
structure DictionaryConfig where
  enabled : Bool
  filePath : String
  weightThreshold : ℚ
  maxWeight : ℚ
deriving DecidableEq

/-- Zod defaults of DictionaryConfigSchema (config.ts lines 57-62):
enabled true, filePath "./dic.txt", weightThreshold 0.6, maxWeight 0.5. -/
def defaultDictionaryConfig : DictionaryConfig :=
  { enabled := true, filePath := "./dic.txt",
    weightThreshold := mkRat 6 10, maxWeight := mkRat 1 2 }

/-- DictionaryEntry from clipboard-manager.ts: original, target, weight in
the unit interval, enabled flag. -/
structure DictionaryEntry where
  original : List Char
  target : List Char
  weight : ℚ
  enabled : Bool
deriving DecidableEq

/-- One recorded replacement of applyDictionary: original matched text,
the entry's target, and the character offset where the match started. -/
structure Replacement where
  original : List Char
  target : List Char
  position : Nat
deriving DecidableEq

/-- ReplacementResult from clipboard-manager.ts. -/
structure ReplacementResult where
  text : List Char
  replacements : List Replacement
deriving DecidableEq

/-- Levenshtein edit distance: the DP matrix built by calculateSimilarity
(part_008 text utils) computes the standard edit distance; embedded as the
standard recurrence. -/
def levDistance : List Char → List Char → Nat
  | [], t => t.length
  | s, [] => s.length
  | a :: s, b :: t =>
      min (min (levDistance s (b :: t) + 1) (levDistance (a :: s) t + 1))
        (levDistance s t + (if a = b then 0 else 1))
termination_by s t => s.length + t.length
decreasing_by all_goals simp_arith

/-- calculateSimilarity from the text utils: 1 for equal strings, 0 if
either is empty, otherwise 1 - distance / maxLength. -/
def calculateSimilarity (s t : List Char) : ℚ :=
  if s = t then 1
  else if s.length = 0 ∨ t.length = 0 then 0
  else 1 - (levDistance s t : ℚ) / (max s.length t.length : ℚ)

/-- DictionaryManager.shouldReplace: the effective weight is
min(weight, maxWeight); replace when the random draw is below it or when
it is at least 0.9. The draw r stands for the Math.random() call, which
JavaScript evaluates before the disjunction is decided. -/
def shouldReplace (cfg : DictionaryConfig) (weight r : ℚ) : Bool :=
  let effectiveWeight := min weight cfg.maxWeight
  decide (r < effectiveWeight) || decide (mkRat 9 10 ≤ effectiveWeight)

/-- DictionaryManager.preserveCase: all-caps original gives an upper-cased
target; capitalized original (first char upper, rest lower) gives a
capitalized target; otherwise the target is inserted verbatim. -/
def preserveCase (original target : List Char) : List Char :=
  if original = original.map Char.toUpper then target.map Char.toUpper
  else if original.take 1 = (original.take 1).map Char.toUpper ∧
      original.drop 1 = (original.drop 1).map Char.toLower then
    (target.take 1).map Char.toUpper ++ (target.drop 1).map Char.toLower
  else target

/-- Case-insensitive literal match of the needle at position i of hay: the
regex new RegExp(escapeRegex(original), "gi") matches the escaped literal
under case folding. -/
def matchesAt (needle hay : List Char) (i : Nat) : Bool :=
  decide (i + needle.length ≤ hay.length) &&
    ((hay.drop i).take needle.length).map Char.toLower == needle.map Char.toLower

/-- First case-insensitive occurrence of the needle at a position at or
after pos: regex.exec with lastIndex = pos. -/
def findFrom (needle hay : List Char) (pos : Nat) : Option Nat :=
  (List.range' pos (hay.length + 1 - pos)).find? (fun i => matchesAt needle hay i)

/-- Result of scanning one dictionary entry over the text: the rewritten
text, the replacement records so far, the index of the next random draw,
and the trace of match positions the while loop examined. -/
structure ScanResult where
  text : List Char
  reps : List Replacement
  rk : Nat
  visited : List Nat
deriving DecidableEq

/-- The while loop of DictionaryManager.applyDictionary for one entry:
repeatedly exec the case-insensitive regex from the current lastIndex; on
a candidate above the similarity threshold draw shouldReplace; on
replacement splice in preserveCase(match, target) and continue after it,
otherwise continue after the match. The fuel bounds iterations (the text
length plus one suffices for a nonempty match term); visited records each
match index the loop examined. -/
def scanEntry (cfg : DictionaryConfig) (entry : DictionaryEntry) (rnd : Nat → ℚ) :
    Nat → Nat → List Char → Nat → List Replacement → List Nat → ScanResult
  | 0, _, text, k, reps, visited => ⟨text, reps, k, visited⟩
  | fuel + 1, pos, text, k, reps, visited =>
    match findFrom entry.original text pos with
    | none => ⟨text, reps, k, visited⟩
    | some idx =>
      let matchText := (text.drop idx).take entry.original.length
      if cfg.weightThreshold ≤
          calculateSimilarity (matchText.map Char.toLower) (entry.original.map Char.toLower) then
        if shouldReplace cfg entry.weight (rnd k) then
          let replacement := preserveCase matchText entry.target
          scanEntry cfg entry rnd fuel (idx + replacement.length)
            (text.take idx ++ replacement ++ text.drop (idx + matchText.length))
            (k + 1) (reps ++ [⟨matchText, entry.target, idx⟩]) (visited ++ [idx])
        else
          scanEntry cfg entry rnd fuel (idx + matchText.length) text (k + 1) reps
            (visited ++ [idx])
      else
        scanEntry cfg entry rnd fuel (idx + matchText.length) text k reps (visited ++ [idx])

/-- Leftmost non-overlapping case-insensitive occurrences of the needle in
hay starting from pos (what the global case-insensitive regex visits). -/
def occList (needle hay : List Char) : Nat → Nat → List Nat
  | 0, _ => []
  | fuel + 1, pos =>
    match findFrom needle hay pos with
    | none => []
    | some idx => idx :: occList needle hay fuel (idx + needle.length)

/-- Stable insertion used to embed the comparator sort of applyDictionary:
Array.prototype.sort with (a, b) => b.weight - a.weight is stable
(ES2019), so an element is inserted after every earlier element of
greater-or-equal weight. Entries are tagged with their original position
in the filtered entry list. -/
def dictInsert (p : Nat × DictionaryEntry) :
    List (Nat × DictionaryEntry) → List (Nat × DictionaryEntry)
  | [] => [p]
  | q :: qs => if q.2.weight ≤ p.2.weight then p :: q :: qs else q :: dictInsert p qs

/-- Stable sort by descending weight over position-tagged entries. -/
def sortEntriesIdx (l : List (Nat × DictionaryEntry)) : List (Nat × DictionaryEntry) :=
  l.foldr dictInsert []

/-- The entry list the applyDictionary loop iterates over, in order:
enabled entries, stably sorted by descending weight. -/
def sortedEntries (entries : List DictionaryEntry) : List DictionaryEntry :=
  (sortEntriesIdx ((entries.filter (fun e => e.enabled)).enum)).map (fun p => p.2)

/-- DictionaryManager state: parsed entries and the isLoaded flag. -/
structure DictState where
  entries : List DictionaryEntry
  isLoaded : Bool
deriving DecidableEq

/-- Fold of the per-entry scan over the sorted entries, threading the
current text, the shared replacements array and the random draw index. -/
def applyEntries (cfg : DictionaryConfig) (rnd : Nat → ℚ) :
    List DictionaryEntry → List Char × List Replacement × Nat →
    List Char × List Replacement × Nat
  | [], st => st
  | e :: rest, (t, reps, k) =>
      let r := scanEntry cfg e rnd (t.length + 1) 0 t k reps []
      applyEntries cfg rnd rest (r.text, r.reps, r.rk)

/-- DictionaryManager.applyDictionary: identity when disabled, not loaded,
or no entries; otherwise scan each enabled entry in descending-weight
order over the evolving text. -/
def applyDictionary (cfg : DictionaryConfig) (ds : DictState) (text : List Char)
    (rnd : Nat → ℚ) : ReplacementResult :=
  if cfg.enabled = false ∨ ds.isLoaded = false ∨ ds.entries = [] then ⟨text, []⟩
  else
    let step := applyEntries cfg rnd (sortedEntries ds.entries) (text, [], 0)
    ⟨step.1, step.2.1⟩

/-! ## Segment pipeline (src/unnamed/part_009, SegmentProcessor) and
session types (src/unnamed/part_005) -/

/-- SegmentStatus from the session types. -/
inductive SegmentStatus where
  | pending
  | transcribing
  | processing
  | outputting
  | completed
  | failed
deriving DecidableEq

/-- AudioSegment from the session types; audio payloads are byte lists. -/
structure AudioSegment where
  id : Nat
  audioData : List Nat
  startTime : ℚ
  endTime : ℚ
  duration : ℚ
  isFinal : Bool
  sampleRate : Nat
  channels : Nat
deriving DecidableEq

/-- ProcessedSegment from the session types (timing fields and metadata,
which no claim touches, are outside the embedding). -/
structure ProcessedSegment where
  segmentId : Nat
  originalAudio : AudioSegment
  rawTranscript : Option (List Char)
  processedTranscript : Option (List Char)
  correctedTranscript : Option (List Char)
  finalText : Option (List Char)
  status : SegmentStatus
  errorMessage : Option String
deriving DecidableEq

/-- AppError: message and code. -/
structure AppErr where
  message : String
  code : String
deriving DecidableEq

/-- ProcessingResult returned by SegmentProcessor.processSegment. -/
structure ProcessingResult where
  segmentId : Nat
  finalText : List Char
  segment : ProcessedSegment
deriving DecidableEq

/-- SegmentProcessorConfig from part_009. -/
structure SegmentProcessorConfig where
  maxConcurrent : Nat
  enableCorrection : Bool
  enableDictionary : Bool
  enableAutoOutput : Bool
deriving DecidableEq

/-- SessionMode: batch ("one breath") or realtime (incremental output). -/
inductive SessionMode where
  | batch
  | realtime
deriving DecidableEq

/-- SessionConfig from the session types. -/
structure SessionConfig where
  mode : SessionMode
  silenceDuration : ℚ
  minSegmentDuration : ℚ
  volumeThreshold : ℚ
  autoOutputEnabled : Bool
  clipboardBackup : Bool
  enableCorrection : Bool
  enableDictionary : Bool
deriving DecidableEq

/-- Outcomes of the external collaborators for one processSegment call:
the Gemini transcription result, the Gemini correction result and the
clipboard write result (the latter only ever affects logging/timing). -/
structure ProcEnv where
  transcription : Except String (List Char)
  correction : Except String (List Char)
  outputOk : Bool

/-- SegmentProcessor.processSegment (part_009 lines 93-219), for one
audio segment, as a pure function of the collaborator outcomes. Returns
the ProcessedSegment as it is pushed onto completedSegments, together
with the Result value returned to the caller. Stages: transcription
(whose failure is thrown and caught: status failed, error captured, no
later stage runs), dictionary (when enabled in both configs), correction
(when enabled in both configs; its failure falls back to the current
text), final-text assignment (status completed), then clipboard output
(when enabled in both configs; status outputting, never reset). -/
def processSegment (cfg : SegmentProcessorConfig) (sc : SessionConfig)
    (dcfg : DictionaryConfig) (ds : DictState) (rnd : Nat → ℚ)
    (env : ProcEnv) (seg : AudioSegment) :
    ProcessedSegment × Except AppErr ProcessingResult :=
  let ps0 : ProcessedSegment :=
    { segmentId := seg.id, originalAudio := seg, rawTranscript := none,
      processedTranscript := none, correctedTranscript := none, finalText := none,
      status := SegmentStatus.pending, errorMessage := none }
  match env.transcription with
  | Except.error _ =>
      let msg := "转录失败"
      ({ ps0 with status := SegmentStatus.failed, errorMessage := some msg },
       Except.error { message := "分段处理失败: " ++ msg, code := "SEGMENT_ERROR" })
  | Except.ok text =>
      let current1 :=
        if cfg.enableDictionary && sc.enableDictionary then
          (applyDictionary dcfg ds text rnd).text
        else text
      let current2 :=
        if cfg.enableCorrection && sc.enableCorrection then
          match env.correction with
          | Except.ok c => c
          | Except.error _ => current1
        else current1
      let finalStatus :=
        if cfg.enableAutoOutput && sc.autoOutputEnabled then SegmentStatus.outputting
        else SegmentStatus.completed
      let psDone : ProcessedSegment :=
        { ps0 with
          rawTranscript := some text
          processedTranscript := some current1
          correctedTranscript := some current2
          finalText := some current2
          status := finalStatus }
      (psDone, Except.ok { segmentId := seg.id, finalText := current2, segment := psDone })

/-- JavaScript truthiness of an optional string: undefined and the empty
string are falsy (the filter s => s.finalText). -/
def jsTruthy (o : Option (List Char)) : Bool :=
  match o with
  | some (_ :: _) => true
  | _ => false

/-- The totalText aggregation of getSessionStats: keep segments with a
truthy finalText, map to the text, join with the empty separator. -/
def joinTexts (l : List ProcessedSegment) : List Char :=
  ((l.filter (fun s => jsTruthy s.finalText)).map (fun s => s.finalText.getD [])).flatten

/-- The SegmentProcessor session-level mutable state that the ordering
claims are about: sessionSegments collects ids in submission order,
completedSegments collects ProcessedSegments in completion order. -/
structure ProcessorSession where
  sessionSegments : List Nat
  completedSegments : List ProcessedSegment
deriving DecidableEq

/-- One concurrent submission: the audio segment together with the
collaborator outcomes and random draws its processing will see. -/
structure Submission where
  env : ProcEnv
  rnd : Nat → ℚ
  seg : AudioSegment

/-- Submission lookup by segment id. -/
def findSubmission (subs : List Submission) (i : Nat) : Option Submission :=
  subs.find? (fun s => s.seg.id == i)

/-- The ProcessedSegment a submission contributes to completedSegments. -/
def finalSegOf (cfg : SegmentProcessorConfig) (sc : SessionConfig)
    (dcfg : DictionaryConfig) (ds : DictState) (sub : Submission) : ProcessedSegment :=
  (processSegment cfg sc dcfg ds sub.rnd sub.env sub.seg).1

/-- completedSegments after the completions listed in compOrder have run,
in that order: each completion appends its final ProcessedSegment. -/
def completedAfter (cfg : SegmentProcessorConfig) (sc : SessionConfig)
    (dcfg : DictionaryConfig) (ds : DictState) (subs : List Submission) :
    List Nat → List ProcessedSegment
  | [] => []
  | i :: rest =>
    match findSubmission subs i with
    | some sub => finalSegOf cfg sc dcfg ds sub :: completedAfter cfg sc dcfg ds subs rest
    | none => completedAfter cfg sc dcfg ds subs rest

/-- One session of the SegmentProcessor under an explicit interleaving:
all segments are submitted in list order (processSegment pushes each id
onto sessionSegments at entry), and their asynchronous completions land
in compOrder (each push onto completedSegments happens when that
segment's processing finishes). -/
def runSchedule (cfg : SegmentProcessorConfig) (sc : SessionConfig)
    (dcfg : DictionaryConfig) (ds : DictState) (subs : List Submission)
    (compOrder : List Nat) : ProcessorSession :=
  { sessionSegments := subs.map (fun s => s.seg.id),
    completedSegments := completedAfter cfg sc dcfg ds subs compOrder }

/-- SegmentProcessor.endSession (part_009 lines 259-267): the completed
segments belonging to the session, in completedSegments order. -/
def processorEndSession (ps : ProcessorSession) : List ProcessedSegment :=
  ps.completedSegments.filter (fun s => ps.sessionSegments.contains s.segmentId)

/-- countCharacters from the text utils: length without whitespace
(ASCII whitespace embeds the regex \s). -/
def isWsChar (c : Char) : Bool :=
  c == ' ' || c == '\t' || c == '\n' || c == '\r'

/-- Character count of the text utils. -/
def countCharacters (t : List Char) : Nat :=
  (t.filter (fun c => !isWsChar c)).length

/-- CJK test of countWords, over the BMP block 4E00-9FA5. -/
def isCjkChar (c : Char) : Bool :=
  decide (0x4e00 ≤ c.toNat) && decide (c.toNat ≤ 0x9fa5)

/-- Whitespace-separated word counter (split on \s+, drop empties). -/
def countWordsAux : Bool → List Char → Nat
  | _, [] => 0
  | inWord, c :: rest =>
    if isWsChar c then countWordsAux false rest
    else (if inWord then 0 else 1) + countWordsAux true rest

/-- countWords from the text utils: CJK characters count one each, the
rest counts whitespace-separated words. -/
def countWords (t : List Char) : Nat :=
  (t.filter (fun c => isCjkChar c)).length +
    countWordsAux false (t.filter (fun c => !isCjkChar c))

/-- Statistics returned by SegmentProcessor.getSessionStats. -/
structure ProcStats where
  total : Nat
  completed : Nat
  failed : Nat
  active : Nat
  totalText : List Char
  totalChars : Nat
  totalWords : Nat
deriving DecidableEq

/-- SegmentProcessor.getSessionStats (part_009 lines 272-301): counts over
the completed segments of the session; active is the size of the
activeSegments map at call time. -/
def getSessionStats (active : Nat) (ps : ProcessorSession) : ProcStats :=
  let sessionSegs := ps.completedSegments.filter
    (fun s => ps.sessionSegments.contains s.segmentId)
  let totalText := joinTexts sessionSegs
  { total := sessionSegs.length,
    completed := (sessionSegs.filter (fun s => s.status == SegmentStatus.completed)).length,
    failed := (sessionSegs.filter (fun s => s.status == SegmentStatus.failed)).length,
    active := active,
    totalText := totalText,
    totalChars := countCharacters totalText,
    totalWords := countWords totalText }

/-- The aggregated transcript of the session (SessionStats.finalText is
generateStats' copy of getSessionStats().totalText). -/
def sessionTotalText (ps : ProcessorSession) : List Char :=
  joinTexts (processorEndSession ps)

/-! ## Session manager (src/typescript/src/managers/session-manager.ts) -/

/-- SessionState of the session manager state machine. -/
inductive SMState where
  | idle
  | recording
  | processing
  | completed
  | error
deriving DecidableEq

/-- SessionManager mutable state. The SegmentProcessor it owns is
embedded as a ProcessorSession; activeSegments is empty at every point
the sequential embedding observes, since every processSegment call is
awaited. -/
structure ManagerState where
  currentSessionId : Option Nat
  currentState : SMState
  currentMode : SessionMode
  sessionAudioBuffer : List (List Nat)
  sessionSegments : List ProcessedSegment
  proc : ProcessorSession

/-- SessionManager.startSession (lines 109-128): error when a session is
already active, otherwise reset the buffers, move to recording and reset
the processor's session list (completedSegments survives until reset).
newId stands for the generated uuid. -/
def startSession (newId : Nat) (mode : SessionMode) (st : ManagerState) :
    Except AppErr Nat × ManagerState :=
  if st.currentState ≠ SMState.idle then
    (Except.error { message := "会话已在进行中", code := "SESSION_ERROR" }, st)
  else
    (Except.ok newId,
     { st with
       currentSessionId := some newId
       currentMode := mode
       sessionAudioBuffer := []
       sessionSegments := []
       currentState := SMState.recording
       proc := { sessionSegments := [], completedSegments := st.proc.completedSegments } })

/-- Push one submission through the embedded SegmentProcessor: the id is
appended to sessionSegments on entry and the final ProcessedSegment is
appended to completedSegments on completion. -/
def procSubmit (cfg : SegmentProcessorConfig) (sc : SessionConfig)
    (dcfg : DictionaryConfig) (ds : DictState) (rnd : Nat → ℚ) (env : ProcEnv)
    (seg : AudioSegment) (ps : ProcessorSession) :
    ProcessorSession × ProcessedSegment × Except AppErr ProcessingResult :=
  let r := processSegment cfg sc dcfg ds rnd env seg
  ({ sessionSegments := ps.sessionSegments ++ [seg.id],
     completedSegments := ps.completedSegments ++ [r.1] }, r.1, r.2)

/-- SessionManager.addAudioSegment (lines 133-162): error outside
recording; in realtime mode the segment is processed immediately (a
successful result is appended to sessionSegments, an error is only
emitted as an event); in batch mode the raw audio is buffered. The third
component lists the segments submitted to the pipeline by this call. -/
def addAudioSegment (cfg : SegmentProcessorConfig) (sc : SessionConfig)
    (dcfg : DictionaryConfig) (ds : DictState) (rnd : Nat → ℚ) (env : ProcEnv)
    (seg : AudioSegment) (st : ManagerState) :
    Except AppErr Unit × ManagerState × List AudioSegment :=
  if st.currentState ≠ SMState.recording then
    (Except.error { message := "当前不在录音状态", code := "SESSION_ERROR" }, st, [])
  else if st.currentMode = SessionMode.realtime then
    let r := procSubmit cfg sc dcfg ds rnd env seg st.proc
    match r.2.2 with
    | Except.ok pr =>
        (Except.ok (),
         { st with proc := r.1, sessionSegments := st.sessionSegments ++ [pr.segment] },
         [seg])
    | Except.error _ =>
        (Except.ok (), { st with proc := r.1 }, [seg])
  else
    (Except.ok (),
     { st with sessionAudioBuffer := st.sessionAudioBuffer ++ [seg.audioData] }, [])

/-- Session-level statistics (SessionStats): duration fields are
wall-clock and outside the embedding. -/
structure SessionStatsModel where
  sessionId : Option Nat
  mode : SessionMode
  segmentCount : Nat
  successCount : Nat
  failureCount : Nat
  finalText : List Char
  characterCount : Nat
  wordCount : Nat
deriving DecidableEq

/-- SessionManager.generateStats (lines 243-266), from the processor's
getSessionStats. -/
def generateStats (st : ManagerState) : SessionStatsModel :=
  let s := getSessionStats 0 st.proc
  { sessionId := st.currentSessionId, mode := st.currentMode,
    segmentCount := s.total, successCount := s.completed, failureCount := s.failed,
    finalText := s.totalText, characterCount := s.totalChars, wordCount := s.totalWords }

/-- SessionManager.endSession (lines 167-230): error when idle; move to
processing; in batch mode with a nonempty buffer, concatenate the
buffered audio into one synthetic final segment (newId stands for its
uuid) and submit exactly that segment to the pipeline, throwing on its
failure (state error); otherwise just generate statistics and complete.
The third component lists the segments submitted to the pipeline by this
call. The asynchronous reset to idle 100 ms later is outside this step. -/
def endSession (cfg : SegmentProcessorConfig) (sc : SessionConfig)
    (dcfg : DictionaryConfig) (ds : DictState) (rnd : Nat → ℚ) (env : ProcEnv)
    (newId : Nat) (st : ManagerState) :
    Except AppErr SessionStatsModel × ManagerState × List AudioSegment :=
  if st.currentState = SMState.idle then
    (Except.error { message := "没有活动的会话", code := "SESSION_ERROR" }, st, [])
  else
    let st1 := { st with currentState := SMState.processing }
    if st1.currentMode = SessionMode.batch ∧ st1.sessionAudioBuffer ≠ [] then
      let audioSegment : AudioSegment :=
        { id := newId, audioData := st1.sessionAudioBuffer.flatten,
          startTime := 0, endTime := 0, duration := 0, isFinal := true,
          sampleRate := 16000, channels := 1 }
      let r := procSubmit cfg sc dcfg ds rnd env audioSegment st1.proc
      match r.2.2 with
      | Except.ok pr =>
          let st2 := { st1 with
            proc := r.1
            sessionSegments := st1.sessionSegments ++ [pr.segment]
            currentState := SMState.completed }
          (Except.ok (generateStats st2), st2, [audioSegment])
      | Except.error e =>
          (Except.error e, { st1 with proc := r.1, currentState := SMState.error },
           [audioSegment])
    else
      let st2 := { st1 with currentState := SMState.completed }
      (Except.ok (generateStats st2), st2, [])

/-! ## Segment detector.

Modelled from the spec: the SegmentDetector component (spec section 4.1)
is not implemented under src; the repository only declares its
configuration fields (silenceDuration, minSegmentDuration,
volumeThreshold in the session types and the session-manager defaults).
The model follows the spec's words: an Idle/Speaking state machine over
equal-duration frames with an energy score; activity comparison uses
greater-or-equal, so exactly-at-threshold counts as speech; silence
lasting silenceDuration closes the buffer and emits a final segment
covering the whole utterance, unless the utterance is shorter than
minSegmentDuration, in which case it is dropped silently: nothing is
emitted and no error exists in the return type. -/

/-- Detector configuration (spec section 4.1; fields declared in the
session types). -/
structure DetectorConfig where
  silenceDuration : ℚ
  minSegmentDuration : ℚ
  volumeThreshold : ℚ
deriving DecidableEq

/-- Modelled from the spec: detector state; speechFrames counts the
frames of the open utterance buffer (0 while Idle), silenceRun the
accumulated sub-threshold time while Speaking. -/
structure DetState where
  speechFrames : Nat
  silenceRun : ℚ
  nextId : Nat
deriving DecidableEq

/-- Modelled from the spec: closing the utterance buffer of n frames of
duration frameDur emits the final segment, or nothing when the utterance
is shorter than minSegmentDuration (sample payloads are abstracted). -/
def closeBuffer (cfg : DetectorConfig) (frameDur : ℚ) (id : Nat) (n : Nat) :
    Option AudioSegment :=
  let duration := (n : ℚ) * frameDur
  if duration < cfg.minSegmentDuration then none
  else some { id := id, audioData := [], startTime := 0, endTime := duration,
              duration := duration, isFinal := true, sampleRate := 16000, channels := 1 }

/-- Modelled from the spec: one detector step on a frame with the given
energy score. -/
def detStep (cfg : DetectorConfig) (frameDur : ℚ) (st : DetState) (energy : ℚ) :
    DetState × Option AudioSegment :=
  if cfg.volumeThreshold ≤ energy then
    ({ st with speechFrames := st.speechFrames + 1, silenceRun := 0 }, none)
  else if st.speechFrames = 0 then (st, none)
  else
    let silenceRun := st.silenceRun + frameDur
    if cfg.silenceDuration ≤ silenceRun then
      ({ speechFrames := 0, silenceRun := 0, nextId := st.nextId + 1 },
       closeBuffer cfg frameDur st.nextId st.speechFrames)
    else ({ st with silenceRun := silenceRun }, none)

/-- Modelled from the spec: run the detector over a frame energy stream,
collecting the emitted final segments. -/
def runDetectorAux (cfg : DetectorConfig) (frameDur : ℚ) :
    DetState → List ℚ → List AudioSegment
  | _, [] => []
  | st, e :: rest =>
    let r := detStep cfg frameDur st e
    r.2.toList ++ runDetectorAux cfg frameDur r.1 rest

/-- Modelled from the spec: the detector's emission stream from Idle. -/
def runDetector (cfg : DetectorConfig) (frameDur : ℚ) (frames : List ℚ) :
    List AudioSegment :=
  runDetectorAux cfg frameDur { speechFrames := 0, silenceRun := 0, nextId := 0 } frames

/-- The ProcessedSegments arising from a detector emission stream fed to
the pipeline. -/
def pipelineOutputs (cfg : SegmentProcessorConfig) (sc : SessionConfig)
    (dcfg : DictionaryConfig) (ds : DictState) (rnd : Nat → ℚ) (env : ProcEnv)
    (segs : List AudioSegment) : List ProcessedSegment :=
  segs.map (fun s => (processSegment cfg sc dcfg ds rnd env s).1)

/-! ## Retry queue.

Modelled from the spec: the RetryQueue component (spec section 4.3) is
not implemented under src; the repository only has the inline retry loop
of GeminiClient.transcribeAudio. The model follows the spec's words for
enqueue: the content fingerprint is a content hash of the audio payload
(embedded as the payload itself, an ideal injective hash); if a task
with the same fingerprint is already pending the failure is merged into
it, incrementing its attempt count, rather than duplicated; otherwise a
new task is appended. Scheduling times are outside the embedding. -/

/-- Modelled from the spec: one pending retry task. -/
structure RetryTask where
  taskId : Nat
  contentFingerprint : List Nat
  attempts : Nat
  lastError : String
deriving DecidableEq

/-- Modelled from the spec: the retry queue's task table. -/
structure RetryQueue where
  tasks : List RetryTask
  nextTaskId : Nat
deriving DecidableEq

/-- Modelled from the spec: content-addressed fingerprint of an audio
payload (ideal injective hash, embedded as the content itself). -/
def contentFingerprint (payload : List Nat) : List Nat := payload

/-- Modelled from the spec: RetryQueue.enqueue with content-addressed
deduplication. -/
def enqueueRetry (payload : List Nat) (e : String) (q : RetryQueue) : RetryQueue :=
  let fp := contentFingerprint payload
  if q.tasks.any (fun t => t.contentFingerprint == fp) then
    { q with tasks := q.tasks.map (fun t =>
        if t.contentFingerprint == fp then
          { t with attempts := t.attempts + 1, lastError := e }
        else t) }
  else
    { tasks := q.tasks ++ [{ taskId := q.nextTaskId, contentFingerprint := fp,
                             attempts := 1, lastError := e }],
      nextTaskId := q.nextTaskId + 1 }

/-- Tasks pending for a given payload's fingerprint. -/
def tasksFor (payload : List Nat) (q : RetryQueue) : List RetryTask :=
  q.tasks.filter (fun t => t.contentFingerprint == contentFingerprint payload)

/-! ## Concrete fixtures used by witnesses and counterexamples -/

/-- Dictionary entry of the spec's scenario: match gpt, replacement GPT,
weight 100%. -/
def gptEntry : DictionaryEntry :=
  { original := "gpt".data, target := "GPT".data, weight := 1, enabled := true }

/-- Dictionary configuration with the default threshold and maxWeight 1
(a value the schema admits, and the one under which a weight-1 entry is
deterministic). -/
def gptConfig : DictionaryConfig :=
  { enabled := true, filePath := "./dic.txt", weightThreshold := mkRat 6 10, maxWeight := 1 }

/-- Loaded dictionary holding only the gpt entry. -/
def gptDict : DictState := { entries := [gptEntry], isLoaded := true }

/-- Processor configuration with all optional stages disabled. -/
def cfg0 : SegmentProcessorConfig :=
  { maxConcurrent := 3, enableCorrection := false, enableDictionary := false,
    enableAutoOutput := false }

/-- Processor configuration with all optional stages enabled. -/
def cfgAll : SegmentProcessorConfig :=
  { maxConcurrent := 3, enableCorrection := true, enableDictionary := true,
    enableAutoOutput := true }

/-- Session configuration with all optional stages disabled. -/
def sc0 : SessionConfig :=
  { mode := SessionMode.batch, silenceDuration := 4, minSegmentDuration := 1,
    volumeThreshold := mkRat 1 100, autoOutputEnabled := false, clipboardBackup := true,
    enableCorrection := false, enableDictionary := false }

/-- Session configuration with all optional stages enabled. -/
def scAll : SessionConfig :=
  { mode := SessionMode.batch, silenceDuration := 4, minSegmentDuration := 1,
    volumeThreshold := mkRat 1 100, autoOutputEnabled := true, clipboardBackup := true,
    enableCorrection := true, enableDictionary := true }

/-- Unloaded, empty dictionary state. -/
def ds0 : DictState := { entries := [], isLoaded := false }

/-- Constant random stream. -/
def rndZero : Nat → ℚ := fun _ => 0

/-- Collaborator outcomes: everything succeeds. -/
def envOk : ProcEnv :=
  { transcription := Except.ok "hi".data, correction := Except.ok "hi".data, outputOk := true }

/-- Collaborator outcomes: transcription fails. -/
def envTErr : ProcEnv :=
  { transcription := Except.error "network", correction := Except.ok [], outputOk := true }

/-- Collaborator outcomes: transcription ok, correction fails. -/
def envCErr : ProcEnv :=
  { transcription := Except.ok "abc".data, correction := Except.error "boom", outputOk := true }

/-- A final audio segment with id 0. -/
def segA : AudioSegment :=
  { id := 0, audioData := [1], startTime := 0, endTime := 1, duration := 1,
    isFinal := true, sampleRate := 16000, channels := 1 }

/-- A final audio segment with id 1. -/
def segB : AudioSegment :=
  { id := 1, audioData := [2], startTime := 0, endTime := 1, duration := 1,
    isFinal := true, sampleRate := 16000, channels := 1 }

/-- Submission of segA transcribing to A. -/
def subA : Submission :=
  { env := { transcription := Except.ok "A".data, correction := Except.ok [], outputOk := true },
    rnd := rndZero, seg := segA }

/-- Submission of segB transcribing to B. -/
def subB : Submission :=
  { env := { transcription := Except.ok "B".data, correction := Except.ok [], outputOk := true },
    rnd := rndZero, seg := segB }

/-- Manager state in the processing phase. -/
def mgrProcessing : ManagerState :=
  { currentSessionId := some 5, currentState := SMState.processing,
    currentMode := SessionMode.batch, sessionAudioBuffer := [], sessionSegments := [],
    proc := { sessionSegments := [], completedSegments := [] } }

/-- Manager state recording in batch mode with two buffered audio chunks. -/
def mgrRecBatch : ManagerState :=
  { currentSessionId := some 5, currentState := SMState.recording,
    currentMode := SessionMode.batch, sessionAudioBuffer := [[1, 2], [3]],
    sessionSegments := [], proc := { sessionSegments := [], completedSegments := [] } }

/-! ## Claim C2: weight policy of dictionary replacement -/

/-- Claim C2 counterexample: under the default configuration
(maxWeight 0.5) the effective weight of a weight-100% entry is 0.5, so a
draw of 0.7 does not replace: the input "i use gpt daily", which
contains the match term above the similarity threshold, comes back
unchanged. The claim's "for an entry with weight = 100% the replacement
always occurs for all inputs" is false as stated. -/
theorem weight100_not_deterministic_under_default :
    shouldReplace defaultDictionaryConfig 1 (mkRat 7 10) = false ∧
    applyDictionary defaultDictionaryConfig gptDict "i use gpt daily".data
        (fun _ => mkRat 7 10) =
      { text := "i use gpt daily".data, replacements := [] } :=
  ⟨by decide, by decide⟩

/-- Claim C2 (amended): replacement is decided by the effective weight
min(entry.weight, maxWeight): at least 0.9 always replaces; below 0.9 it
replaces exactly when the random draw is below the effective weight; and
a weight-100% entry replaces deterministically provided maxWeight is at
least 0.9 (the default maxWeight 0.5 makes it probabilistic instead). -/
theorem shouldReplace_effective_weight_policy (cfg : DictionaryConfig) (w r : ℚ) :
    (mkRat 9 10 ≤ min w cfg.maxWeight → shouldReplace cfg w r = true) ∧
    (min w cfg.maxWeight < mkRat 9 10 →
      (shouldReplace cfg w r = true ↔ r < min w cfg.maxWeight)) ∧
    (w = 1 → mkRat 9 10 ≤ cfg.maxWeight → shouldReplace cfg w r = true) := by
  refine ⟨?_, ?_, ?_⟩
  · intro h
    simp only [shouldReplace, Bool.or_eq_true, decide_eq_true_eq]
    exact Or.inr h
  · intro h
    simp only [shouldReplace, Bool.or_eq_true, decide_eq_true_eq]
    constructor
    · rintro (hr | hge)
      · exact hr
      · exact absurd hge (not_le.mpr h)
    · exact fun hr => Or.inl hr
  · intro hw h
    subst hw
    simp only [shouldReplace, Bool.or_eq_true, decide_eq_true_eq]
    refine Or.inr (le_min ?_ h)
    have : mkRat 9 10 ≤ (1 : ℚ) := by decide
    exact this

/-- Witness for the amended C2 policy at concrete inputs: with
maxWeight 1 a weight-1 entry replaces on the draw 0. -/
theorem shouldReplace_effective_weight_policy_witness :
    shouldReplace gptConfig 1 0 = true :=
  (shouldReplace_effective_weight_policy gptConfig 1 0).2.2 rfl (by decide)

/-! ## Claim C4: session state machine preconditions -/

/-- Claim C4: startSession errors and leaves the state unchanged whenever
a session is already active (state not idle), and addAudioSegment errors
(never a silent no-op) and leaves the state unchanged, submitting
nothing, whenever the state is not recording. -/
theorem session_state_machine_preconditions (newId : Nat) (mode : SessionMode)
    (cfg : SegmentProcessorConfig) (sc : SessionConfig) (dcfg : DictionaryConfig)
    (ds : DictState) (rnd : Nat → ℚ) (env : ProcEnv) (seg : AudioSegment)
    (st : ManagerState) :
    (st.currentState ≠ SMState.idle →
      startSession newId mode st =
        (Except.error { message := "会话已在进行中", code := "SESSION_ERROR" }, st)) ∧
    (st.currentState ≠ SMState.recording →
      addAudioSegment cfg sc dcfg ds rnd env seg st =
        (Except.error { message := "当前不在录音状态", code := "SESSION_ERROR" }, st, [])) := by
  constructor
  · intro h
    simp [startSession, h]
  · intro h
    simp [addAudioSegment, h]

/-- Witness for C4 at a concrete processing-phase state, where both
preconditions are violated. -/
theorem session_state_machine_preconditions_witness :
    startSession 9 SessionMode.batch mgrProcessing =
      (Except.error { message := "会话已在进行中", code := "SESSION_ERROR" }, mgrProcessing) ∧
    addAudioSegment cfg0 sc0 defaultDictionaryConfig ds0 rndZero envOk segA mgrProcessing =
      (Except.error { message := "当前不在录音状态", code := "SESSION_ERROR" },
       mgrProcessing, []) :=
  ⟨(session_state_machine_preconditions 9 SessionMode.batch cfg0 sc0 defaultDictionaryConfig
      ds0 rndZero envOk segA mgrProcessing).1 (by decide),
   (session_state_machine_preconditions 9 SessionMode.batch cfg0 sc0 defaultDictionaryConfig
      ds0 rndZero envOk segA mgrProcessing).2 (by decide)⟩

/-! ## Claim C5: stage failure semantics of processSegment -/

/-- Claim C5 counterexample: with every stage enabled, a correction-stage
failure (a non-retryable Gemini error) does not transition the segment to
failed: the segment falls back to the uncorrected text, the output stage
still runs (status outputting) and processSegment returns ok. -/
theorem correction_failure_segment_not_failed :
    (processSegment cfgAll scAll defaultDictionaryConfig ds0 rndZero envCErr segA).1.status =
      SegmentStatus.outputting ∧
    (processSegment cfgAll scAll defaultDictionaryConfig ds0 rndZero envCErr segA).1.status ≠
      SegmentStatus.failed ∧
    (processSegment cfgAll scAll defaultDictionaryConfig ds0 rndZero envCErr segA).1.finalText =
      some "abc".data ∧
    ∃ pr, (processSegment cfgAll scAll defaultDictionaryConfig ds0 rndZero envCErr segA).2 =
      Except.ok pr :=
  ⟨by decide, by decide, by decide, ⟨_, rfl⟩⟩

/-- Claim C5 (amended): only the transcription stage can fail a segment.
On a transcription failure the segment transitions to failed with the
error captured and no later stage runs (no transcript field is ever
set), and the call returns an error Result. On a successful
transcription the segment never ends failed and the call returns ok:
correction failures fall back to the current text and output failures
are only logged. -/
theorem stage_failure_semantics (cfg : SegmentProcessorConfig) (sc : SessionConfig)
    (dcfg : DictionaryConfig) (ds : DictState) (rnd : Nat → ℚ) (env : ProcEnv)
    (seg : AudioSegment) :
    ((∃ e, env.transcription = Except.error e) →
      (processSegment cfg sc dcfg ds rnd env seg).1.status = SegmentStatus.failed ∧
      (processSegment cfg sc dcfg ds rnd env seg).1.errorMessage = some "转录失败" ∧
      (processSegment cfg sc dcfg ds rnd env seg).1.rawTranscript = none ∧
      (processSegment cfg sc dcfg ds rnd env seg).1.processedTranscript = none ∧
      (processSegment cfg sc dcfg ds rnd env seg).1.correctedTranscript = none ∧
      (processSegment cfg sc dcfg ds rnd env seg).1.finalText = none ∧
      (processSegment cfg sc dcfg ds rnd env seg).2 =
        Except.error { message := "分段处理失败: 转录失败", code := "SEGMENT_ERROR" }) ∧
    ((∃ t, env.transcription = Except.ok t) →
      (processSegment cfg sc dcfg ds rnd env seg).1.status ≠ SegmentStatus.failed ∧
      ∃ pr, (processSegment cfg sc dcfg ds rnd env seg).2 = Except.ok pr) := by
  constructor
  · rintro ⟨e, he⟩
    simp [processSegment, he]
  · rintro ⟨t, ht⟩
    constructor
    · simp only [processSegment, ht]
      split <;> simp
    · simp only [processSegment, ht]
      exact ⟨_, rfl⟩

/-- Witness for the amended C5 at concrete inputs: a failing
transcription yields a failed segment with the error captured, and a
successful transcription yields a non-failed segment. -/
theorem stage_failure_semantics_witness :
    (processSegment cfgAll scAll defaultDictionaryConfig ds0 rndZero envTErr segA).1.status =
      SegmentStatus.failed ∧
    (processSegment cfgAll scAll defaultDictionaryConfig ds0 rndZero envOk segA).1.status ≠
      SegmentStatus.failed :=
  ⟨((stage_failure_semantics cfgAll scAll defaultDictionaryConfig ds0 rndZero envTErr
      segA).1 ⟨"network", rfl⟩).1,
   ((stage_failure_semantics cfgAll scAll defaultDictionaryConfig ds0 rndZero envOk
      segA).2 ⟨"hi".data, rfl⟩).1⟩

/-! ## Claim C8: auto-output leaves the status at outputting -/

/-- Claim C8: when auto-output is enabled in both the processor config
and the session config and the segment completes all stages, the call
returns ok but the returned ProcessedSegment keeps status outputting (it
is never set back to completed), so getSessionStats counts it neither as
completed nor as failed. -/
theorem auto_output_status_never_completed (cfg : SegmentProcessorConfig)
    (sc : SessionConfig) (dcfg : DictionaryConfig) (ds : DictState) (rnd : Nat → ℚ)
    (env : ProcEnv) (seg : AudioSegment) (t : List Char)
    (ht : env.transcription = Except.ok t)
    (h1 : cfg.enableAutoOutput = true) (h2 : sc.autoOutputEnabled = true) :
    (∃ pr, (processSegment cfg sc dcfg ds rnd env seg).2 = Except.ok pr) ∧
    (processSegment cfg sc dcfg ds rnd env seg).1.status = SegmentStatus.outputting ∧
    (getSessionStats 0
      ⟨[seg.id], [(processSegment cfg sc dcfg ds rnd env seg).1]⟩).completed = 0 ∧
    (getSessionStats 0
      ⟨[seg.id], [(processSegment cfg sc dcfg ds rnd env seg).1]⟩).failed = 0 ∧
    (getSessionStats 0
      ⟨[seg.id], [(processSegment cfg sc dcfg ds rnd env seg).1]⟩).total = 1 := by
  refine ⟨?_, ?_, ?_, ?_, ?_⟩
  · simp only [processSegment, ht]
    exact ⟨_, rfl⟩
  · simp [processSegment, ht, h1, h2]
  · simp [getSessionStats, processSegment, ht, h1, h2]
  · simp [getSessionStats, processSegment, ht, h1, h2]
  · simp [getSessionStats, processSegment, ht, h1, h2]

/-- Witness for C8 at concrete inputs. -/
theorem auto_output_status_never_completed_witness :
    (processSegment cfgAll scAll defaultDictionaryConfig ds0 rndZero envOk segA).1.status =
      SegmentStatus.outputting ∧
    (getSessionStats 0
      ⟨[segA.id],
       [(processSegment cfgAll scAll defaultDictionaryConfig ds0 rndZero envOk segA).1]⟩
      ).completed = 0 :=
  ⟨(auto_output_status_never_completed cfgAll scAll defaultDictionaryConfig ds0 rndZero
      envOk segA "hi".data rfl rfl rfl).2.1,
   (auto_output_status_never_completed cfgAll scAll defaultDictionaryConfig ds0 rndZero
      envOk segA "hi".data rfl rfl rfl).2.2.1⟩

/-! ## Claim C7: retry queue deduplication (spec-modelled) -/

/-- Claim C7 (spec-modelled): enqueuing the same audio payload twice
before its task resolves yields exactly one pending task for its content
fingerprint, with the attempt count incremented to 2, never two distinct
tasks. -/
theorem retry_enqueue_dedup (payload : List Nat) (e1 e2 : String) (q : RetryQueue)
    (h : tasksFor payload q = []) :
    tasksFor payload (enqueueRetry payload e2 (enqueueRetry payload e1 q)) =
      [{ taskId := q.nextTaskId, contentFingerprint := contentFingerprint payload,
         attempts := 2, lastError := e2 }] := by
  have hall : ∀ t ∈ q.tasks,
      (t.contentFingerprint == contentFingerprint payload) = false := by
    intro t ht
    have h2 := List.filter_eq_nil_iff.mp h t ht
    simpa using h2
  have hany : q.tasks.any
      (fun t => t.contentFingerprint == contentFingerprint payload) = false :=
    List.any_eq_false.mpr (fun t ht => by simp [hall t ht])
  have hq1 : enqueueRetry payload e1 q =
      ⟨q.tasks ++ [⟨q.nextTaskId, contentFingerprint payload, 1, e1⟩],
       q.nextTaskId + 1⟩ := by
    simp only [enqueueRetry]
    rw [if_neg (by simp [hany])]
  rw [hq1]
  simp only [enqueueRetry, tasksFor]
  rw [if_pos (by simp)]
  simp only [List.map_append, List.filter_append]
  rw [List.filter_eq_nil_iff.mpr ?side]
  case side =>
    intro t ht
    rcases List.mem_map.mp ht with ⟨u, hu, rfl⟩
    simp [hall u hu]
  simp [hall]

/-- Witness for C7: two enqueues of the payload 1,2,3 on the empty queue
leave one task with two attempts. -/
theorem retry_enqueue_dedup_witness :
    tasksFor [1, 2, 3] (enqueueRetry [1, 2, 3] "timeout" (enqueueRetry [1, 2, 3] "network"
      { tasks := [], nextTaskId := 0 })) =
      [{ taskId := 0, contentFingerprint := contentFingerprint [1, 2, 3],
         attempts := 2, lastError := "timeout" }] :=
  retry_enqueue_dedup [1, 2, 3] "network" "timeout" { tasks := [], nextTaskId := 0 } rfl

/-! ## Claim C6: batch mode buffers, endSession flushes one synthetic
final segment -/

/-- Claim C6: while recording in batch mode, addAudioSegment only appends
the raw audio to the session buffer and submits nothing to the pipeline;
endSession then concatenates the buffered audio into exactly one
synthetic final segment (isFinal true) and submits only that segment. -/
theorem batch_buffer_and_single_flush (cfg : SegmentProcessorConfig) (sc : SessionConfig)
    (dcfg : DictionaryConfig) (ds : DictState) (rnd : Nat → ℚ) (env : ProcEnv)
    (seg : AudioSegment) (newId : Nat) (st : ManagerState)
    (h1 : st.currentState = SMState.recording) (h2 : st.currentMode = SessionMode.batch) :
    addAudioSegment cfg sc dcfg ds rnd env seg st =
      (Except.ok (),
       { st with sessionAudioBuffer := st.sessionAudioBuffer ++ [seg.audioData] }, []) ∧
    (st.sessionAudioBuffer ≠ [] →
      (endSession cfg sc dcfg ds rnd env newId st).2.2 =
        [{ id := newId, audioData := st.sessionAudioBuffer.flatten, startTime := 0,
           endTime := 0, duration := 0, isFinal := true, sampleRate := 16000,
           channels := 1 }]) := by
  constructor
  · simp [addAudioSegment, h1, h2]
  · intro h3
    simp only [endSession]
    rw [if_neg (by simp [h1])]
    rw [if_pos (by exact ⟨by simp [h2], by simpa using h3⟩)]
    split <;> simp
/-- Witness for C6 at a concrete recording batch-mode state with two
buffered chunks. -/
theorem batch_buffer_and_single_flush_witness :
    addAudioSegment cfg0 sc0 defaultDictionaryConfig ds0 rndZero envOk segA mgrRecBatch =
      (Except.ok (),
       { mgrRecBatch with
         sessionAudioBuffer := mgrRecBatch.sessionAudioBuffer ++ [segA.audioData] }, []) ∧
    (endSession cfg0 sc0 defaultDictionaryConfig ds0 rndZero envOk 7 mgrRecBatch).2.2 =
      [{ id := 7, audioData := mgrRecBatch.sessionAudioBuffer.flatten, startTime := 0,
         endTime := 0, duration := 0, isFinal := true, sampleRate := 16000,
         channels := 1 }] :=
  ⟨(batch_buffer_and_single_flush cfg0 sc0 defaultDictionaryConfig ds0 rndZero envOk segA 7
      mgrRecBatch rfl rfl).1,
   (batch_buffer_and_single_flush cfg0 sc0 defaultDictionaryConfig ds0 rndZero envOk segA 7
      mgrRecBatch rfl rfl).2 (by decide)⟩

/-! ## Claim C1: ordering of the aggregated transcript -/

/-- processSegment never changes the segment id it was given. -/
theorem processSegment_segmentId (cfg : SegmentProcessorConfig) (sc : SessionConfig)
    (dcfg : DictionaryConfig) (ds : DictState) (rnd : Nat → ℚ) (env : ProcEnv)
    (seg : AudioSegment) :
    (processSegment cfg sc dcfg ds rnd env seg).1.segmentId = seg.id := by
  cases h : env.transcription <;> simp [processSegment, h]

/-- Every segment in completedAfter carries the id of a submission whose
completion was scheduled. -/
theorem completedAfter_mem_ids (cfg : SegmentProcessorConfig) (sc : SessionConfig)
    (dcfg : DictionaryConfig) (ds : DictState) (subs : List Submission) :
    ∀ compOrder : List Nat,
      (∀ i ∈ compOrder, i ∈ subs.map (fun s => s.seg.id)) →
      ∀ s ∈ completedAfter cfg sc dcfg ds subs compOrder,
        s.segmentId ∈ subs.map (fun s => s.seg.id) := by
  intro compOrder
  induction compOrder with
  | nil => intro _ s hs; simp [completedAfter] at hs
  | cons i rest ih =>
    intro h s hs
    cases hf : findSubmission subs i with
    | none =>
      rw [completedAfter, hf] at hs
      exact ih (fun j hj => h j (List.mem_cons_of_mem i hj)) s hs
    | some sub =>
      rw [completedAfter, hf] at hs
      rcases List.mem_cons.mp hs with rfl | hs'
      · have hid : sub.seg.id = i := by
          have hbeq := List.find?_some hf
          simpa using hbeq
        rw [finalSegOf, processSegment_segmentId, hid]
        exact h i (List.mem_cons_self i rest)
      · exact ih (fun j hj => h j (List.mem_cons_of_mem i hj)) s hs'

/-- Claim C1 (amended): under any concurrent completion schedule whose
completions belong to the submitted segments, endSession returns the
session's ProcessedSegment list in completion order (the order the
asynchronous processSegment calls finished), and the aggregated
transcript is the concatenation of the truthy final texts in that
completion order; submission order is not restored. -/
theorem endSession_completion_order (cfg : SegmentProcessorConfig) (sc : SessionConfig)
    (dcfg : DictionaryConfig) (ds : DictState) (subs : List Submission)
    (compOrder : List Nat)
    (h : ∀ i ∈ compOrder, i ∈ subs.map (fun s => s.seg.id)) :
    processorEndSession (runSchedule cfg sc dcfg ds subs compOrder) =
      completedAfter cfg sc dcfg ds subs compOrder ∧
    sessionTotalText (runSchedule cfg sc dcfg ds subs compOrder) =
      joinTexts (completedAfter cfg sc dcfg ds subs compOrder) := by
  have h1 : processorEndSession (runSchedule cfg sc dcfg ds subs compOrder) =
      completedAfter cfg sc dcfg ds subs compOrder := by
    simp only [processorEndSession, runSchedule]
    apply List.filter_eq_self.mpr
    intro s hs
    have hmem := completedAfter_mem_ids cfg sc dcfg ds subs compOrder h s hs
    simpa using hmem
  exact ⟨h1, by rw [sessionTotalText, h1]⟩

/-- Claim C1 counterexample: segments with ids 0 and 1 are submitted in
that order, transcribing to A and B; their completions land in the order
1, 0. The aggregated transcript is BA (completion order), not the
submission-order AB: the claim that the final transcript is assembled in
submission order regardless of completion order is false. -/
theorem endSession_submission_order_counterexample :
    sessionTotalText (runSchedule cfg0 sc0 defaultDictionaryConfig ds0 [subA, subB]
      [1, 0]) = "BA".data ∧
    sessionTotalText (runSchedule cfg0 sc0 defaultDictionaryConfig ds0 [subA, subB]
      [1, 0]) ≠ "AB".data :=
  ⟨by decide, by decide⟩

/-- Witness for the amended C1 at the concrete two-segment schedule. -/
theorem endSession_completion_order_witness :
    processorEndSession (runSchedule cfg0 sc0 defaultDictionaryConfig ds0 [subA, subB]
      [1, 0]) =
      completedAfter cfg0 sc0 defaultDictionaryConfig ds0 [subA, subB] [1, 0] :=
  (endSession_completion_order cfg0 sc0 defaultDictionaryConfig ds0 [subA, subB] [1, 0]
    (by decide)).1

/-! ## Claim C3: short final utterances are dropped (spec-modelled) -/

/-- processSegment keeps the original audio segment on the result. -/
theorem processSegment_originalAudio (cfg : SegmentProcessorConfig) (sc : SessionConfig)
    (dcfg : DictionaryConfig) (ds : DictState) (rnd : Nat → ℚ) (env : ProcEnv)
    (seg : AudioSegment) :
    (processSegment cfg sc dcfg ds rnd env seg).1.originalAudio = seg := by
  cases h : env.transcription <;> simp [processSegment, h]

/-- A detector step only ever emits segments at least
minSegmentDuration long. -/
theorem detStep_emits_long (c : DetectorConfig) (fd : ℚ) (st : DetState) (e : ℚ)
    (seg : AudioSegment) (h : (detStep c fd st e).2 = some seg) :
    c.minSegmentDuration ≤ seg.duration := by
  unfold detStep at h
  split at h
  · simp at h
  · split at h
    · simp at h
    · simp only [] at h
      split at h
      · simp only [] at h
        unfold closeBuffer at h
        simp only at h
        split at h
        · simp at h
        · rename_i hd
          injection h with h'
          subst h'
          exact le_of_not_lt hd
      · simp at h

/-- Every segment the detector emits is at least minSegmentDuration
long. -/
theorem runDetectorAux_emits_long (c : DetectorConfig) (fd : ℚ) :
    ∀ (frames : List ℚ) (st : DetState),
      ∀ seg ∈ runDetectorAux c fd st frames, c.minSegmentDuration ≤ seg.duration := by
  intro frames
  induction frames with
  | nil => intro st seg hs; simp [runDetectorAux] at hs
  | cons e rest ih =>
    intro st seg hs
    rw [runDetectorAux] at hs
    rcases List.mem_append.mp hs with hl | hr
    · cases ho : (detStep c fd st e).2 with
      | none => rw [ho] at hl; simp at hl
      | some s' =>
        rw [ho] at hl
        simp only [Option.toList_some, List.mem_singleton] at hl
        subst hl
        exact detStep_emits_long c fd st e seg ho
    · exact ih (detStep c fd st e).1 seg hr

/-- Claim C3 (spec-modelled): a final utterance shorter than
minSegmentDuration is dropped silently by the detector: closing the
buffer emits nothing (there is no error channel), and consequently every
ProcessedSegment arising from the detector's emission stream originates
from an audio segment at least minSegmentDuration long, so a shorter
final segment never produces a ProcessedSegment. -/
theorem short_final_segment_never_processed (c : DetectorConfig) (fd : ℚ)
    (frames : List ℚ) (cfg : SegmentProcessorConfig) (sc : SessionConfig)
    (dcfg : DictionaryConfig) (ds : DictState) (rnd : Nat → ℚ) (env : ProcEnv) :
    (∀ (id n : Nat), (n : ℚ) * fd < c.minSegmentDuration →
      closeBuffer c fd id n = none) ∧
    (∀ ps ∈ pipelineOutputs cfg sc dcfg ds rnd env (runDetector c fd frames),
      c.minSegmentDuration ≤ ps.originalAudio.duration) := by
  constructor
  · intro id n hn
    unfold closeBuffer
    simp only
    rw [if_pos hn]
  · intro ps hps
    rcases List.mem_map.mp hps with ⟨seg, hseg, rfl⟩
    rw [processSegment_originalAudio]
    exact runDetectorAux_emits_long c fd frames _ seg hseg

/-- Detector configuration with silenceDuration 1, minSegmentDuration 1
and volumeThreshold 1, driven with frame duration 1. -/
def detCfg1 : DetectorConfig :=
  { silenceDuration := 1, minSegmentDuration := 1, volumeThreshold := 1 }

/-- The final segment the detector emits on the frame energies 1, 0
under detCfg1: one speech frame closed by one silence frame. -/
def detEmitted : AudioSegment :=
  { id := 0, audioData := [], startTime := 0, endTime := 1, duration := 1,
    isFinal := true, sampleRate := 16000, channels := 1 }

/-- Witness for C3 at concrete inputs: a zero-frame utterance emits
nothing, and the segment actually emitted on the frame stream 1, 0 is
processed into a ProcessedSegment whose originating audio respects the
minimum duration. -/
theorem short_final_segment_never_processed_witness :
    closeBuffer detCfg1 1 3 0 = none ∧
    detCfg1.minSegmentDuration ≤
      ((processSegment cfg0 sc0 defaultDictionaryConfig ds0 rndZero envOk
        detEmitted).1).originalAudio.duration := by
  have hrun : runDetector detCfg1 1 [1, 0] = [detEmitted] := by
    norm_num [runDetector, runDetectorAux, detStep, detCfg1, closeBuffer, detEmitted]
  refine ⟨?_, ?_⟩
  · exact (short_final_segment_never_processed detCfg1 1 [1, 0] cfg0 sc0
      defaultDictionaryConfig ds0 rndZero envOk).1 3 0 (by norm_num [detCfg1])
  · apply (short_final_segment_never_processed detCfg1 1 [1, 0] cfg0 sc0
      defaultDictionaryConfig ds0 rndZero envOk).2
    rw [pipelineOutputs, hrun]
    simp

/-! ## Claim C9: case preservation and the gpt scenario -/

/-- The per-entry scan depends on the random stream only through the
shouldReplace decision at each draw. -/
theorem scanEntry_congr (cfg : DictionaryConfig) (entry : DictionaryEntry)
    (rnd rnd' : Nat → ℚ)
    (h : ∀ k, shouldReplace cfg entry.weight (rnd k) =
      shouldReplace cfg entry.weight (rnd' k)) :
    ∀ (fuel pos : Nat) (text : List Char) (k : Nat) (reps : List Replacement)
      (visited : List Nat),
      scanEntry cfg entry rnd fuel pos text k reps visited =
        scanEntry cfg entry rnd' fuel pos text k reps visited := by
  intro fuel
  induction fuel with
  | zero => intro pos text k reps visited; rfl
  | succ n ih =>
    intro pos text k reps visited
    rw [scanEntry, scanEntry]
    cases hf : findFrom entry.original text pos with
    | none => rfl
    | some idx =>
      simp only []
      split
      · rw [h k]
        split
        · exact ih _ _ _ _ _
        · exact ih _ _ _ _ _
      · exact ih _ _ _ _ _

/-- With maxWeight 1, a weight-1 entry replaces on every draw. -/
theorem gpt_always_replaces (r : ℚ) : shouldReplace gptConfig 1 r = true := by
  simp only [shouldReplace, Bool.or_eq_true, decide_eq_true_eq]
  exact Or.inr (by decide)

/-- Claim C9: a replacement preserves the matched span's case style: an
all-caps match upper-cases the target, a capitalized match (first char
upper, rest lower) capitalizes the target, and otherwise the target is
inserted verbatim; and, end to end, the entry match gpt, replacement
GPT at weight 100% (with maxWeight at least 0.9 so that the weight is
deterministic) rewrites the input "i use gpt daily" to
"i use GPT daily" for every random stream, recording exactly one
replacement at offset 6. -/
theorem preserveCase_rules_and_gpt_scenario :
    (∀ original target : List Char, original = original.map Char.toUpper →
      preserveCase original target = target.map Char.toUpper) ∧
    (∀ original target : List Char, original ≠ original.map Char.toUpper →
      (original.take 1 = (original.take 1).map Char.toUpper ∧
        original.drop 1 = (original.drop 1).map Char.toLower) →
      preserveCase original target =
        (target.take 1).map Char.toUpper ++ (target.drop 1).map Char.toLower) ∧
    (∀ original target : List Char, original ≠ original.map Char.toUpper →
      ¬(original.take 1 = (original.take 1).map Char.toUpper ∧
        original.drop 1 = (original.drop 1).map Char.toLower) →
      preserveCase original target = target) ∧
    (∀ rnd : Nat → ℚ,
      applyDictionary gptConfig gptDict "i use gpt daily".data rnd =
        ⟨"i use GPT daily".data, [⟨"gpt".data, "GPT".data, 6⟩]⟩) := by
  refine ⟨?_, ?_, ?_, ?_⟩
  · intro original target h
    rw [preserveCase, if_pos h]
  · intro original target h1 h2
    rw [preserveCase, if_neg h1, if_pos h2]
  · intro original target h1 h2
    rw [preserveCase, if_neg h1, if_neg h2]
  · intro rnd
    have hcongr := scanEntry_congr gptConfig gptEntry rnd rndZero
      (fun k => by rw [show gptEntry.weight = 1 from rfl, gpt_always_replaces,
        gpt_always_replaces])
    have hstep : applyDictionary gptConfig gptDict "i use gpt daily".data rnd =
        applyDictionary gptConfig gptDict "i use gpt daily".data rndZero := by
      unfold applyDictionary
      rw [if_neg (by decide), if_neg (by decide)]
      have hse : sortedEntries gptDict.entries = [gptEntry] := by decide
      rw [hse]
      simp only [applyEntries]
      rw [hcongr]
    rw [hstep]
    decide

/-- Witness for C9 at concrete case-style inputs: an all-caps match
upper-cases the target, a capitalized match capitalizes it, and a
lower-case match (the scenario's gpt) takes the target verbatim. -/
theorem preserveCase_rules_witness :
    preserveCase "HI".data "go".data = "go".data.map Char.toUpper ∧
    preserveCase "Hi".data "go".data =
      ("go".data.take 1).map Char.toUpper ++ ("go".data.drop 1).map Char.toLower ∧
    preserveCase "gpt".data "GPT".data = "GPT".data :=
  ⟨(preserveCase_rules_and_gpt_scenario.1 "HI".data "go".data (by decide)),
   (preserveCase_rules_and_gpt_scenario.2.1 "Hi".data "go".data (by decide) (by decide)),
   (preserveCase_rules_and_gpt_scenario.2.2.1 "gpt".data "GPT".data (by decide) (by decide))⟩

/-! ## Claim C10: processing order of dictionary entries and the
per-entry scan -/

/-- Order the applyDictionary sort establishes on position-tagged
entries: strictly heavier first, equal weights in original file order. -/
def entryOrd (p q : Nat × DictionaryEntry) : Prop :=
  q.2.weight < p.2.weight ∨ (p.2.weight = q.2.weight ∧ p.1 < q.1)

/-- Membership through the stable insertion. -/
theorem mem_dictInsert (p x : Nat × DictionaryEntry) :
    ∀ l : List (Nat × DictionaryEntry), x ∈ dictInsert p l ↔ x = p ∨ x ∈ l := by
  intro l
  induction l with
  | nil => simp [dictInsert]
  | cons q qs ih =>
    rw [dictInsert]
    split
    · simp [List.mem_cons]
    · simp only [List.mem_cons, ih]
      tauto

/-- Stable insertion preserves the entry order when the inserted element
is earlier in the file than everything present. -/
theorem dictInsert_pairwise (p : Nat × DictionaryEntry) :
    ∀ l : List (Nat × DictionaryEntry), l.Pairwise entryOrd →
      (∀ q ∈ l, p.1 < q.1) → (dictInsert p l).Pairwise entryOrd := by
  intro l
  induction l with
  | nil => intro _ _; simp [dictInsert, entryOrd]
  | cons q qs ih =>
    intro hl hidx
    rw [dictInsert]
    split
    · rename_i hw
      refine List.pairwise_cons.mpr ⟨?_, hl⟩
      intro x hx
      rcases List.mem_cons.mp hx with rfl | hx'
      · rcases lt_or_eq_of_le hw with hlt | heq
        · exact Or.inl hlt
        · exact Or.inr ⟨heq.symm, hidx x (List.mem_cons_self x qs)⟩
      · have hqx := List.rel_of_pairwise_cons hl hx'
        have hxw : x.2.weight ≤ q.2.weight := by
          rcases hqx with hlt | ⟨heq, _⟩
          · exact le_of_lt hlt
          · exact le_of_eq heq.symm
        have hxp : x.2.weight ≤ p.2.weight := le_trans hxw hw
        rcases lt_or_eq_of_le hxp with hlt | heq
        · exact Or.inl hlt
        · exact Or.inr ⟨heq.symm, hidx x (List.mem_cons_of_mem q hx')⟩
    · rename_i hw
      have hpq : p.2.weight < q.2.weight := lt_of_not_le hw
      refine List.pairwise_cons.mpr ⟨?_, ?_⟩
      · intro x hx
        rcases (mem_dictInsert p x qs).mp hx with rfl | hx'
        · exact Or.inl hpq
        · exact List.rel_of_pairwise_cons hl hx'
      · exact ih (List.Pairwise.of_cons hl)
          (fun x hx => hidx x (List.mem_cons_of_mem q hx))

/-- The stable insertion is a permutation step. -/
theorem dictInsert_perm (p : Nat × DictionaryEntry) :
    ∀ l : List (Nat × DictionaryEntry), (dictInsert p l).Perm (p :: l) := by
  intro l
  induction l with
  | nil => exact List.Perm.refl _
  | cons q qs ih =>
    rw [dictInsert]
    split
    · exact List.Perm.refl _
    · exact (List.Perm.cons q ih).trans (List.Perm.swap p q qs)

/-- The stable sort is a permutation. -/
theorem sortEntriesIdx_perm :
    ∀ l : List (Nat × DictionaryEntry), (sortEntriesIdx l).Perm l := by
  intro l
  induction l with
  | nil => exact List.Perm.refl _
  | cons p qs ih =>
    have : sortEntriesIdx (p :: qs) = dictInsert p (sortEntriesIdx qs) := rfl
    rw [this]
    exact (dictInsert_perm p (sortEntriesIdx qs)).trans (List.Perm.cons p ih)

/-- Position tags of enumFrom are bounded below. -/
theorem mem_enumFrom_le {α : Type} (x : Nat × α) :
    ∀ (n : Nat) (l : List α), x ∈ List.enumFrom n l → n ≤ x.1 := by
  intro n l
  induction l generalizing n with
  | nil => intro h; simp at h
  | cons a l ih =>
    intro h
    rcases List.mem_cons.mp h with rfl | h'
    · exact le_refl _
    · exact le_trans (Nat.le_succ n) (ih (n + 1) h')

/-- Position tags of enumFrom are strictly increasing. -/
theorem enumFrom_pairwise_lt {α : Type} :
    ∀ (n : Nat) (l : List α),
      (List.enumFrom n l).Pairwise (fun p q => p.1 < q.1) := by
  intro n l
  induction l generalizing n with
  | nil => simp
  | cons a l ih =>
    refine List.pairwise_cons.mpr ⟨?_, ih (n + 1)⟩
    intro q hq
    exact lt_of_lt_of_le (Nat.lt_succ_self n) (mem_enumFrom_le q (n + 1) l hq)

/-- The stable sort of position-tagged entries is ordered by entryOrd. -/
theorem sortEntriesIdx_pairwise :
    ∀ l : List (Nat × DictionaryEntry),
      l.Pairwise (fun p q => p.1 < q.1) →
      (sortEntriesIdx l).Pairwise entryOrd := by
  intro l
  induction l with
  | nil => intro _; rw [sortEntriesIdx]; exact List.Pairwise.nil
  | cons p qs ih =>
    intro h
    have hs : sortEntriesIdx (p :: qs) = dictInsert p (sortEntriesIdx qs) := rfl
    rw [hs]
    have h1 := List.pairwise_cons.mp h
    refine dictInsert_pairwise p (sortEntriesIdx qs) (ih h1.2) ?_
    intro q hq
    exact h1.1 q ((sortEntriesIdx_perm qs).mem_iff.mp hq)

/-- A found occurrence lies at or after the scan position and matches
case-insensitively. -/
theorem findFrom_eq_some {needle hay : List Char} {pos i : Nat}
    (h : findFrom needle hay pos = some i) :
    pos ≤ i ∧ matchesAt needle hay i = true := by
  unfold findFrom at h
  have h1 := List.find?_some h
  have h2 := List.mem_of_find?_eq_some h
  rw [List.mem_range'_1] at h2
  exact ⟨h2.1, h1⟩

/-- A case-insensitive match has the full length of the needle. -/
theorem matchesAt_length {needle hay : List Char} {i : Nat}
    (h : matchesAt needle hay i = true) :
    ((hay.drop i).take needle.length).length = needle.length := by
  unfold matchesAt at h
  obtain ⟨h1, _⟩ := Bool.and_eq_true_iff.mp h
  have hb := of_decide_eq_true h1
  simp only [List.length_take, List.length_drop]
  omega

/-- A case-insensitive match equals the needle up to lower-casing. -/
theorem matchesAt_lower {needle hay : List Char} {i : Nat}
    (h : matchesAt needle hay i = true) :
    ((hay.drop i).take needle.length).map Char.toLower = needle.map Char.toLower := by
  unfold matchesAt at h
  obtain ⟨_, h2⟩ := Bool.and_eq_true_iff.mp h
  exact eq_of_beq h2

/-- When no candidate is replaced, the scan leaves the text and the
replacement list untouched and its visit trace is exactly the leftmost
non-overlapping case-insensitive occurrence list of the match term. -/
theorem scanEntry_no_replace (cfg : DictionaryConfig) (entry : DictionaryEntry)
    (rnd : Nat → ℚ) (h : ∀ j, shouldReplace cfg entry.weight (rnd j) = false) :
    ∀ (fuel pos : Nat) (text : List Char) (k : Nat) (reps : List Replacement)
      (visited : List Nat),
      (scanEntry cfg entry rnd fuel pos text k reps visited).text = text ∧
      (scanEntry cfg entry rnd fuel pos text k reps visited).reps = reps ∧
      (scanEntry cfg entry rnd fuel pos text k reps visited).visited =
        visited ++ occList entry.original text fuel pos := by
  intro fuel
  induction fuel with
  | zero => intro pos text k reps visited; simp [scanEntry, occList]
  | succ n ih =>
    intro pos text k reps visited
    rw [scanEntry, occList]
    cases hf : findFrom entry.original text pos with
    | none => simp
    | some idx =>
      have hlen := matchesAt_length (findFrom_eq_some hf).2
      simp only [hlen]
      split
      · rw [h k]
        simp only [Bool.false_eq_true, if_false]
        obtain ⟨ht, hr, hv⟩ := ih (idx + entry.original.length) text (k + 1) reps
          (visited ++ [idx])
        refine ⟨ht, hr, ?_⟩
        rw [hv, List.append_assoc]
        rfl
      · obtain ⟨ht, hr, hv⟩ := ih (idx + entry.original.length) text k reps
          (visited ++ [idx])
        refine ⟨ht, hr, ?_⟩
        rw [hv, List.append_assoc]
        rfl

/-- Every replacement the scan records matches the entry's term
case-insensitively. -/
theorem scanEntry_reps_lower (cfg : DictionaryConfig) (entry : DictionaryEntry)
    (rnd : Nat → ℚ) :
    ∀ (fuel pos : Nat) (text : List Char) (k : Nat) (reps : List Replacement)
      (visited : List Nat),
      (∀ x ∈ reps, x.original.map Char.toLower = entry.original.map Char.toLower) →
      ∀ x ∈ (scanEntry cfg entry rnd fuel pos text k reps visited).reps,
        x.original.map Char.toLower = entry.original.map Char.toLower := by
  intro fuel
  induction fuel with
  | zero => intro pos text k reps visited hreps; simpa [scanEntry] using hreps
  | succ n ih =>
    intro pos text k reps visited hreps
    rw [scanEntry]
    cases hf : findFrom entry.original text pos with
    | none => simpa using hreps
    | some idx =>
      simp only []
      split
      · split
        · apply ih
          intro x hx
          rcases List.mem_append.mp hx with hx' | hx'
          · exact hreps x hx'
          · rw [List.mem_singleton.mp hx']
            exact matchesAt_lower (findFrom_eq_some hf).2
        · exact ih _ _ _ _ _ hreps
      · exact ih _ _ _ _ _ hreps

/-- Claim C10: applyDictionary processes the enabled entries in strictly
descending weight order with ties broken by original file order (the
position-tagged stable sort is Pairwise-ordered by entryOrd and is a
permutation of the enabled entries), and for each entry the while loop
scans all case-insensitive occurrences of its match term: when no
candidate is replaced its visit trace is exactly the leftmost
non-overlapping case-insensitive occurrence list, and every replacement
it ever records matches the term case-insensitively. -/
theorem dictionary_order_and_scan (entries : List DictionaryEntry)
    (cfg : DictionaryConfig) (entry : DictionaryEntry) (rnd : Nat → ℚ)
    (fuel pos k : Nat) (text : List Char) (visited : List Nat) :
    ((sortEntriesIdx ((entries.filter (fun e => e.enabled)).enum)).Pairwise entryOrd) ∧
    ((sortedEntries entries).Perm (entries.filter (fun e => e.enabled))) ∧
    ((∀ j, shouldReplace cfg entry.weight (rnd j) = false) →
      (scanEntry cfg entry rnd fuel pos text k [] visited).text = text ∧
      (scanEntry cfg entry rnd fuel pos text k [] visited).visited =
        visited ++ occList entry.original text fuel pos) ∧
    (∀ x ∈ (scanEntry cfg entry rnd fuel pos text k [] visited).reps,
      x.original.map Char.toLower = entry.original.map Char.toLower) := by
  refine ⟨?_, ?_, ?_, ?_⟩
  · exact sortEntriesIdx_pairwise _ (enumFrom_pairwise_lt 0 _)
  · have h1 := (sortEntriesIdx_perm ((entries.filter (fun e => e.enabled)).enum)).map
        (fun p : Nat × DictionaryEntry => p.2)
    have h2 : ((entries.filter (fun e => e.enabled)).enum).map
        (fun p : Nat × DictionaryEntry => p.2) = entries.filter (fun e => e.enabled) :=
      List.enumFrom_map_snd 0 _
    rw [h2] at h1
    exact h1
  · intro hnr
    obtain ⟨ht, _, hv⟩ := scanEntry_no_replace cfg entry rnd hnr fuel pos text k [] visited
    exact ⟨ht, hv⟩
  · exact scanEntry_reps_lower cfg entry rnd fuel pos text k [] visited (by simp)

/-- Dictionary configuration whose maxWeight 0 suppresses every
replacement. -/
def dictWitCfg : DictionaryConfig :=
  { enabled := true, filePath := "./dic.txt", weightThreshold := mkRat 6 10,
    maxWeight := 0 }

/-- A half-weight entry rewriting a to b. -/
def dictWitEntry : DictionaryEntry :=
  { original := "a".data, target := "b".data, weight := mkRat 1 2, enabled := true }

/-- Constant random stream of ones. -/
def rndOne : Nat → ℚ := fun _ => 1

/-- Witness for C10 at concrete inputs: with maxWeight 0 nothing
replaces, so scanning the entry a over aba leaves the text unchanged and
visits exactly the occurrences 0 and 2; and the single replacement
recorded by the gpt scenario scan matches gpt case-insensitively. -/
theorem dictionary_order_and_scan_witness :
    (scanEntry dictWitCfg dictWitEntry rndOne 4 0 "aba".data 0 [] []).text =
      "aba".data ∧
    (scanEntry dictWitCfg dictWitEntry rndOne 4 0 "aba".data 0 [] []).visited =
      [] ++ occList dictWitEntry.original "aba".data 4 0 ∧
    (⟨"gpt".data, "GPT".data, 6⟩ : Replacement).original.map Char.toLower =
      gptEntry.original.map Char.toLower := by
  have hnr : ∀ j, shouldReplace dictWitCfg dictWitEntry.weight (rndOne j) = false := by
    intro j
    show shouldReplace dictWitCfg dictWitEntry.weight 1 = false
    decide
  refine ⟨?_, ?_, ?_⟩
  · exact ((dictionary_order_and_scan [dictWitEntry] dictWitCfg dictWitEntry rndOne 4 0 0
      "aba".data []).2.2.1 hnr).1
  · exact ((dictionary_order_and_scan [dictWitEntry] dictWitCfg dictWitEntry rndOne 4 0 0
      "aba".data []).2.2.1 hnr).2
  · exact (dictionary_order_and_scan [gptEntry] gptConfig gptEntry rndZero 16 0 0
      "i use gpt daily".data []).2.2.2 ⟨"gpt".data, "GPT".data, 6⟩ (by decide)
